import Mathlib

/-!
Verification development for the index.xml crawler (src/main.py).

The embedding models:
* XML documents as finite element trees (`Element`), with lxml's
  `root.xpath('//tag')` as a preorder (document-order) descendant-or-self
  query (`xpathAll`);
* per-file extraction `extract_data_from_xml` including the
  `try/except etree.XMLSyntaxError / except Exception` structure: a file is
  either malformed, or parses to a root element with an optional "unexpected
  exception" point, given as the number of `data.append` calls that completed
  before the exception fired (`FileInput`);
* the directory walk `os.walk(target_path)` with its default
  `onerror=None` behaviour: a directory whose listing fails is silently
  skipped (it contributes nothing and is not recursed into), including the
  root itself (`osWalk`);
* the dispatcher `browse_and_extract`: candidate discovery, the
  `ThreadPoolExecutor.map` gather (results delivered in submission order no
  matter in which order tasks complete — modelled by an explicit completion
  order in `gather`/`completeIn`), concatenation of per-file record lists,
  and the attempted-file counter;
* the CSV reporting step of `main` (`writeReport`).
-/

namespace IndexCrawler

/-- Constant `MISSING` of src/main.py. -/
def MISSING : String := "Missing"

/-- Constant `FILE_EXTENSION` of src/main.py. -/
def FILE_EXTENSION : String := ".xml"

/-- Constant `FILE_NAME` of src/main.py. -/
def FILE_NAME : String := "index.xml"

/-- An XML element: tag name, attribute list, child elements. -/
inductive Element where
  | mk (tag : String) (attrs : List (String × String)) (children : List Element)
deriving Repr

/-- Tag name of an element. -/
def Element.tag : Element → String
  | .mk t _ _ => t

/-- Attribute list of an element. -/
def Element.attrs : Element → List (String × String)
  | .mk _ a _ => a

/-- Children of an element. -/
def Element.children : Element → List Element
  | .mk _ _ c => c

/-- lxml `element.get(key)`: the attribute's value, or None when absent. -/
def Element.get (e : Element) (k : String) : Option String :=
  (e.attrs.find? (fun p => p.1 == k)).map Prod.snd

mutual
/-- All elements of the subtree rooted at `e`, in document (preorder) order,
`e` itself first. -/
def Element.descendants : Element → List Element
  | .mk t a cs => .mk t a cs :: descendantsAll cs

/-- Document-order concatenation of the subtrees of a list of elements. -/
def descendantsAll : List Element → List Element
  | [] => []
  | e :: es => e.descendants ++ descendantsAll es
end

/-- `root.xpath('//name')`: every element of the document with the given tag,
in document order. -/
def xpathAll (root : Element) (name : String) : List Element :=
  root.descendants.filter (fun e => e.tag == name)

/-- One output row, as appended to `data` in `extract_data_from_xml`:
`[rtype, filePath, manufacturer, name, form]`. -/
structure Record where
  rtype : String
  filePath : String
  manufacturer : String
  name : String
  form : String
deriving Repr, DecidableEq

/-- Python `x or MISSING` applied to the result of `element.get(key)`:
`None` and the empty string are falsy, every other string is kept. -/
def orMissing : Option String → String
  | none => MISSING
  | some s => if s = "" then MISSING else s

/-- The row appended for one matched `m3-2-s-drug-substance` element
(src/main.py lines 49-54). -/
def substanceRecord (path : String) (e : Element) : Record :=
  ⟨"drug_substance", path, orMissing (e.get "manufacturer"),
    orMissing (e.get "substance"), "N/A"⟩

/-- The synthetic row appended when no substance element matches
(src/main.py line 59). -/
def syntheticSubstance (path : String) : Record :=
  ⟨"drug_substance", path, MISSING, MISSING, "N/A"⟩

/-- The row appended for one matched `m3-2-p-drug-product` element
(src/main.py lines 62-68). -/
def productRecord (path : String) (e : Element) : Record :=
  ⟨"drug_product", path, orMissing (e.get "manufacturer"),
    orMissing (e.get "product-name"), orMissing (e.get "dosageform")⟩

/-- The sequence of `data.append` calls the try block of
`extract_data_from_xml` performs for a successfully parsed document, in
order: the substance loop (or the synthetic substance row), then the
product loop. -/
def appendTrace (path : String) (root : Element) : List Record :=
  (if (xpathAll root "m3-2-s-drug-substance").isEmpty then
      [syntheticSubstance path]
    else
      (xpathAll root "m3-2-s-drug-substance").map (substanceRecord path))
  ++ (xpathAll root "m3-2-p-drug-product").map (productRecord path)

/-- What happens when one candidate file is processed.  `malformed` is an
`etree.XMLSyntaxError` raised by `etree.parse`.  `wf root exn` is a document
that parses to `root`; `exn = some k` means some exception other than
`XMLSyntaxError` fires inside the try block after exactly `k` of its
`data.append` calls have completed (e.g. `k = 0` for an I/O error during
`etree.parse`, or `k` = the substance-row count for a failure of the
`debug_logger.debug` call between the two loops); `exn = none` means the try
block runs to completion. -/
inductive FileInput where
  | malformed
  | wf (root : Element) (exn : Option Nat)

/-- A warning written to `warning_logger` (src/main.py lines 69-75). -/
inductive Warn where
  | malformedWarning (path : String)
  | unexpectedWarning (path : String)
deriving Repr, DecidableEq

/-- `extract_data_from_xml`: the returned `data` list together with the
warnings logged.  Both except clauses swallow the exception and fall through
to `return data`, so an unexpected exception returns the rows appended
before it fired. -/
def extract_data_from_xml (path : String) (f : FileInput) :
    List Record × List Warn :=
  match f with
  | .malformed => ([], [.malformedWarning path])
  | .wf root none => (appendTrace path root, [])
  | .wf root (some k) => ((appendTrace path root).take k, [.unexpectedWarning path])

/-- A directory tree: directory name, whether `os.scandir` succeeds on it,
its plain files' names, and its subdirectories. -/
inductive DirTree where
  | dir (name : String) (readable : Bool) (files : List String)
      (subdirs : List DirTree)

/-- Name of a directory node. -/
def DirTree.name : DirTree → String
  | .dir n _ _ _ => n

mutual
/-- `os.walk(path)` over the tree rooted at `path`, with the default
`onerror=None`: a directory whose listing fails is ignored (nothing yielded,
no recursion) and the walk continues elsewhere; this applies to the root
directory too.  Yields `(dirpath, filenames)` pairs, top-down. -/
def osWalk (path : String) : DirTree → List (String × List String)
  | .dir _ readable files subdirs =>
    if readable then (path, files) :: osWalkChildren path subdirs else []

/-- Walk each subdirectory in turn, extending the path. -/
def osWalkChildren (path : String) : List DirTree → List (String × List String)
  | [] => []
  | d :: ds => osWalk (path ++ "/" ++ d.name) d ++ osWalkChildren path ds
end

/-- Python `s.endswith(post)`: character-level suffix test. -/
def pyEndsWith (s post : String) : Bool :=
  post.toList.isSuffixOf s.toList

/-- The filter applied to each filename in `browse_and_extract` line 88:
`f.endswith(file_extension) and f == file_name`. -/
def matchesFilter (fileExtension fileName f : String) : Bool :=
  pyEndsWith f fileExtension && f == fileName

/-- The candidate paths submitted as tasks, in discovery order
(src/main.py lines 86-92). -/
def candidateFiles (target : String) (t : DirTree)
    (fileExtension fileName : String) : List String :=
  (osWalk target t).flatMap fun pr =>
    (pr.2.filter (matchesFilter fileExtension fileName)).map
      (fun f => pr.1 ++ "/" ++ f)

/-- A filesystem assigns contents (a `FileInput`) to every path. -/
def FS : Type := String → FileInput

/-- `browse_and_extract`: walk the tree, filter candidates, extract each,
concatenate the per-file record lists in submission order (the order
`executor.map` returns results), and count candidate files.  Returns
`(data, warnings, xml_file_count)`. -/
def browse_and_extract (target : String) (t : DirTree) (fs : FS)
    (fileExtension fileName : String) : List Record × List Warn × Nat :=
  let cands := candidateFiles target t fileExtension fileName
  let results := cands.map fun p => extract_data_from_xml p (fs p)
  ((results.map Prod.fst).flatten, (results.map Prod.snd).flatten, cands.length)

/-- A pool run in which tasks complete in the order given by `order`
(a list of task indices): each completion delivers `(index, result)`. -/
def completeIn (g : Nat → α) (order : List Nat) : List (Nat × α) :=
  order.map fun i => (i, g i)

/-- The gather step of `executor.map`: the result for submission index `i`
is placed at position `i` of the output, regardless of when it completed. -/
def gather (n : Nat) (done : List (Nat × α)) (dflt : α) : List α :=
  (List.range n).map fun i =>
    ((done.find? (fun pr => pr.1 == i)).map Prod.snd).getD dflt

/-- The record lists collected by the pool for the given candidates when
tasks complete in the order `order`. -/
def poolResults (cands : List String) (fs : FS) (order : List Nat) :
    List (List Record) :=
  gather cands.length
    (completeIn (fun i => (extract_data_from_xml (cands.getD i "") (fs (cands.getD i ""))).1) order)
    []

/-- The CSV header row written by `main` (src/main.py line 135). -/
def headerRow : List String := ["Type", "File Path", "Manufacturer", "Name", "Form"]

/-- A record as a CSV row. -/
def Record.toRow (r : Record) : List String :=
  [r.rtype, r.filePath, r.manufacturer, r.name, r.form]

/-- The report-writing step of `main` (src/main.py lines 132-138): no file
when `data` is empty, otherwise one file holding the header row followed by
one row per record. -/
def writeReport (data : List Record) : Option (List (List String)) :=
  if data.isEmpty then none else some (headerRow :: data.map Record.toRow)

/-- `os.path.splitext`-style extension: the suffix of the name starting at
its last dot, or the empty string when the name has no dot. -/
def extOf (f : String) : String :=
  if f.toList.contains '.' then
    String.mk ('.' :: (f.toList.reverse.takeWhile (fun c => c ≠ '.')).reverse)
  else ""

/-- The candidate filter as the spec words it (§4.1): base name equals the
name filter AND the extension equals the extension filter.  This definition
follows the spec's words, for comparison with `matchesFilter`, which is the
source's condition. -/
def specFilter (fileName fileExtension f : String) : Bool :=
  f == fileName && extOf f == fileExtension

mutual
/-- Whether every directory of the tree can be listed. -/
def allReadable : DirTree → Bool
  | .dir _ r _ subs => r && allReadableAll subs

/-- `allReadable` over a list of trees. -/
def allReadableAll : List DirTree → Bool
  | [] => true
  | d :: ds => allReadable d && allReadableAll ds
end

mutual
/-- Structural count of the files anywhere in the tree, at any depth,
satisfying the spec's filter for the configured name and extension.
Spec-side yardstick for the walker's exactly-once guarantee. -/
def specMatchCount : DirTree → Nat
  | .dir _ _ files subs =>
    (files.filter (specFilter FILE_NAME FILE_EXTENSION)).length + specMatchCountAll subs

/-- `specMatchCount` summed over a list of trees. -/
def specMatchCountAll : List DirTree → Nat
  | [] => 0
  | d :: ds => specMatchCount d + specMatchCountAll ds
end

/-- Concrete substance element with both attributes present. -/
def egSub : Element :=
  .mk "m3-2-s-drug-substance" [("manufacturer", "Acme"), ("substance", "X")] []

/-- Concrete substance element with no attributes. -/
def egSub2 : Element := .mk "m3-2-s-drug-substance" [] []

/-- Concrete product element with all three attributes present. -/
def egProd : Element :=
  .mk "m3-2-p-drug-product"
    [("manufacturer", "Beta"), ("product-name", "Y"), ("dosageform", "tablet")] []

/-- Concrete document with one substance and one product element. -/
def egDoc : Element := .mk "ectd" [] [egSub, egProd]

/-- Concrete document with two substance elements, one nested deeper. -/
def egDoc2 : Element := .mk "ectd" [] [egSub, .mk "m3-2" [] [egSub2]]

/-- Concrete document with no matching elements at all. -/
def egEmptyDoc : Element := .mk "ectd" [] [.mk "m3-2" [] []]

/-- Concrete element whose relevant attributes are all present but empty. -/
def egEmptyAttr : Element :=
  .mk "m3-2-s-drug-substance"
    [("manufacturer", ""), ("substance", ""), ("product-name", ""), ("dosageform", "")] []

/-- A root directory that cannot be listed, holding a matching file. -/
def unreadableRoot : DirTree := .dir "r" false ["index.xml"] []

/-- Concrete directory tree: a readable root with one matching file, one
file with the right extension but the wrong name, one file with the wrong
extension, and two readable subdirectories, one holding a second matching
file. -/
def egTree : DirTree :=
  .dir "root" true ["index.xml", "data.xml", "index.txt"]
    [.dir "m1" true ["index.xml"] [], .dir "m2" true [] []]

/-- Concrete filesystem: the matching file at the root parses, every other
path is malformed. -/
def egFS : FS := fun p => if p = "root/index.xml" then .wf egDoc none else .malformed

/-- The record list returned by `browse_and_extract` is the concatenation,
in submission order, of the per-file record lists. -/
theorem browse_fst_eq (target : String) (t : DirTree) (fs : FS) (e n : String) :
    (browse_and_extract target t fs e n).1
      = ((candidateFiles target t e n).map
          fun p => (extract_data_from_xml p (fs p)).1).flatten := by
  show (((candidateFiles target t e n).map
      fun p => extract_data_from_xml p (fs p)).map Prod.fst).flatten = _
  rw [List.map_map]
  rfl

/-- Every row appended inside the try block is a substance or product row. -/
theorem rtype_of_mem_appendTrace (path : String) (root : Element) :
    ∀ r ∈ appendTrace path root,
      r.rtype = "drug_substance" ∨ r.rtype = "drug_product" := by
  intro r hr
  unfold appendTrace at hr
  rcases List.mem_append.mp hr with h | h
  · by_cases he : (xpathAll root "m3-2-s-drug-substance").isEmpty
    · rw [if_pos he] at h
      rcases List.mem_singleton.mp h with rfl
      exact Or.inl rfl
    · rw [if_neg he] at h
      rcases List.mem_map.mp h with ⟨x, _, rfl⟩
      exact Or.inl rfl
  · rcases List.mem_map.mp h with ⟨x, _, rfl⟩
    exact Or.inr rfl

/-- Every record returned for any file is a substance or product row. -/
theorem rtype_of_mem_extract (path : String) (f : FileInput) :
    ∀ r ∈ (extract_data_from_xml path f).1,
      r.rtype = "drug_substance" ∨ r.rtype = "drug_product" := by
  intro r hr
  cases f with
  | malformed => simp [extract_data_from_xml] at hr
  | wf root exn =>
    cases exn with
    | none => exact rtype_of_mem_appendTrace path root r hr
    | some k =>
      exact rtype_of_mem_appendTrace path root r (List.mem_of_mem_take hr)

/-- The substance rows of the append trace: synthetic when no element
matched, one per match otherwise. -/
theorem filter_substance_appendTrace (path : String) (root : Element) :
    (appendTrace path root).filter (fun r => r.rtype == "drug_substance")
      = if (xpathAll root "m3-2-s-drug-substance").isEmpty then
          [syntheticSubstance path]
        else (xpathAll root "m3-2-s-drug-substance").map (substanceRecord path) := by
  unfold appendTrace
  rw [List.filter_append]
  have hprod : ((xpathAll root "m3-2-p-drug-product").map (productRecord path)).filter
      (fun r => r.rtype == "drug_substance") = [] := by
    refine List.filter_eq_nil_iff.mpr ?_
    intro r hr
    rcases List.mem_map.mp hr with ⟨x, _, rfl⟩
    simp [productRecord, Record.rtype]
  rw [hprod, List.append_nil]
  by_cases he : (xpathAll root "m3-2-s-drug-substance").isEmpty
  · rw [if_pos he]
    rfl
  · rw [if_neg he]
    refine List.filter_eq_self.mpr ?_
    intro r hr
    rcases List.mem_map.mp hr with ⟨x, _, rfl⟩
    simp [substanceRecord, Record.rtype]

/-- The product rows of the append trace: exactly one per matched element,
with no synthetic placeholder. -/
theorem filter_product_appendTrace (path : String) (root : Element) :
    (appendTrace path root).filter (fun r => r.rtype == "drug_product")
      = (xpathAll root "m3-2-p-drug-product").map (productRecord path) := by
  unfold appendTrace
  rw [List.filter_append]
  have hsub : (if (xpathAll root "m3-2-s-drug-substance").isEmpty then
        [syntheticSubstance path]
      else (xpathAll root "m3-2-s-drug-substance").map (substanceRecord path)).filter
      (fun r => r.rtype == "drug_product") = [] := by
    by_cases he : (xpathAll root "m3-2-s-drug-substance").isEmpty
    · rw [if_pos he]
      rfl
    · rw [if_neg he]
      refine List.filter_eq_nil_iff.mpr ?_
      intro r hr
      rcases List.mem_map.mp hr with ⟨x, _, rfl⟩
      simp [substanceRecord, Record.rtype]
  rw [hsub, List.nil_append]
  refine List.filter_eq_self.mpr ?_
  intro r hr
  rcases List.mem_map.mp hr with ⟨x, _, rfl⟩
  simp [productRecord, Record.rtype]

/-- A completed task's result is found under its submission index. -/
theorem find_completeIn {α : Type} (g : Nat → α) (i : Nat) (order : List Nat)
    (h : i ∈ order) :
    (completeIn g order).find? (fun pr => pr.1 == i) = some (i, g i) := by
  induction order with
  | nil => exact absurd h (List.not_mem_nil i)
  | cons j rest ih =>
    by_cases hji : j = i
    · subst hji
      exact List.find?_cons_of_pos _ (by simp)
    · rw [show completeIn g (j :: rest) = (j, g j) :: completeIn g rest from rfl]
      rw [List.find?_cons_of_neg _ (by simp [hji])]
      refine ih ?_
      rcases List.mem_cons.mp h with h1 | h1
      · exact absurd h1.symm hji
      · exact h1

/-- Gathering results by submission index recovers the map in submission
order, whatever the completion order was, provided every index completed. -/
theorem gather_completeIn {α : Type} (g : Nat → α) (dflt : α) (n : Nat)
    (order : List Nat) (h : ∀ i, i < n → i ∈ order) :
    gather n (completeIn g order) dflt = (List.range n).map g := by
  unfold gather
  refine List.map_congr_left ?_
  intro i hi
  rw [find_completeIn g i order (h i (List.mem_range.mp hi))]
  rfl

/-- Mapping over positions and reading with a default is mapping over the
list itself. -/
theorem map_range_getD {α β : Type} (l : List α) (d : α) (F : α → β) :
    (List.range l.length).map (fun i => F (l.getD i d)) = l.map F := by
  refine List.ext_getElem (by simp) ?_
  intro i h1 h2
  have hi : i < l.length := by simpa using h2
  simp only [List.getElem_map, List.getElem_range]
  rw [List.getD_eq_getElem l d hi]

/-- A pool run in which every submitted index completes collects exactly the
per-file record lists, in submission order. -/
theorem poolResults_eq (cands : List String) (fs : FS) (order : List Nat)
    (h : ∀ i, i < cands.length → i ∈ order) :
    poolResults cands fs order
      = cands.map fun p => (extract_data_from_xml p (fs p)).1 := by
  unfold poolResults
  rw [gather_completeIn _ _ _ _ h]
  exact map_range_getD cands "" (fun p => (extract_data_from_xml p (fs p)).1)

/-- At the configured name and extension, the source's filename condition
agrees with the spec's name-and-extension condition. -/
theorem filters_agree (f : String) :
    matchesFilter FILE_EXTENSION FILE_NAME f
      = specFilter FILE_NAME FILE_EXTENSION f := by
  by_cases hf : f = FILE_NAME
  · subst hf
    decide
  · have hb : (f == FILE_NAME) = false := beq_eq_false_iff_ne.mpr hf
    unfold matchesFilter specFilter
    rw [hb]
    simp

mutual
/-- On a fully readable tree, the walker yields as many candidates as the
tree has files matching the spec's filter, at any depth. -/
theorem candidateFiles_length_eq (path : String) (t : DirTree)
    (h : allReadable t = true) :
    (candidateFiles path t FILE_EXTENSION FILE_NAME).length = specMatchCount t := by
  match t with
  | .dir nm r files subs =>
    obtain ⟨hr1, hr2⟩ : r = true ∧ allReadableAll subs = true := by
      simpa [allReadable, Bool.and_eq_true] using h
    subst hr1
    unfold candidateFiles
    rw [show osWalk path (DirTree.dir nm true files subs)
        = (path, files) :: osWalkChildren path subs from rfl]
    rw [List.flatMap_cons, List.length_append, List.length_map]
    rw [List.filter_congr (fun f _ => filters_agree f)]
    rw [candidateFilesChildren_length_eq path subs hr2]
    rfl

/-- `candidateFiles_length_eq` over a list of readable subtrees. -/
theorem candidateFilesChildren_length_eq (path : String) (ds : List DirTree)
    (h : allReadableAll ds = true) :
    ((osWalkChildren path ds).flatMap fun pr =>
        (pr.2.filter (matchesFilter FILE_EXTENSION FILE_NAME)).map
          (fun f => pr.1 ++ "/" ++ f)).length = specMatchCountAll ds := by
  match ds with
  | [] => rfl
  | d :: ds2 =>
    obtain ⟨hd1, hd2⟩ : allReadable d = true ∧ allReadableAll ds2 = true := by
      simpa [allReadableAll, Bool.and_eq_true] using h
    rw [show osWalkChildren path (d :: ds2)
        = osWalk (path ++ "/" ++ d.name) d ++ osWalkChildren path ds2 from rfl]
    rw [List.flatMap_append, List.length_append]
    have h1 : ((osWalk (path ++ "/" ++ d.name) d).flatMap fun pr =>
        (pr.2.filter (matchesFilter FILE_EXTENSION FILE_NAME)).map
          (fun f => pr.1 ++ "/" ++ f)).length = specMatchCount d :=
      candidateFiles_length_eq (path ++ "/" ++ d.name) d hd1
    rw [h1, candidateFilesChildren_length_eq path ds2 hd2]
    rfl
end

/-- Claim C1: the record list returned by `browse_and_extract` is the
concatenation of the per-path extraction results, its length is the sum of
the per-path record counts, and a pool run under any completion order in
which every submitted task finishes gathers exactly the same record list —
no outcome is lost, duplicated or partially merged. -/
theorem browse_and_extract_aggregates_all (target : String) (t : DirTree)
    (fs : FS) (e n : String) (order : List Nat)
    (h : ∀ i, i < (candidateFiles target t e n).length → i ∈ order) :
    (browse_and_extract target t fs e n).1
      = ((candidateFiles target t e n).map
          fun p => (extract_data_from_xml p (fs p)).1).flatten
    ∧ (browse_and_extract target t fs e n).1.length
      = ((candidateFiles target t e n).map
          fun p => (extract_data_from_xml p (fs p)).1.length).sum
    ∧ (poolResults (candidateFiles target t e n) fs order).flatten
      = (browse_and_extract target t fs e n).1 := by
  have key := browse_fst_eq target t fs e n
  refine ⟨key, ?_, ?_⟩
  · rw [key, List.length_flatten, List.map_map]
    rfl
  · rw [poolResults_eq _ _ _ h, key]

/-- Witness for C1 on a concrete tree with two candidate files, completing
out of submission order. -/
theorem browse_and_extract_aggregates_all_witness :
    (∀ i, i < (candidateFiles "root" egTree FILE_EXTENSION FILE_NAME).length →
      i ∈ [1, 0])
    ∧ ((browse_and_extract "root" egTree egFS FILE_EXTENSION FILE_NAME).1
        = ((candidateFiles "root" egTree FILE_EXTENSION FILE_NAME).map
            fun p => (extract_data_from_xml p (egFS p)).1).flatten
      ∧ (browse_and_extract "root" egTree egFS FILE_EXTENSION FILE_NAME).1.length
        = ((candidateFiles "root" egTree FILE_EXTENSION FILE_NAME).map
            fun p => (extract_data_from_xml p (egFS p)).1.length).sum
      ∧ (poolResults (candidateFiles "root" egTree FILE_EXTENSION FILE_NAME)
            egFS [1, 0]).flatten
        = (browse_and_extract "root" egTree egFS FILE_EXTENSION FILE_NAME).1) := by
  have h : ∀ i, i < (candidateFiles "root" egTree FILE_EXTENSION FILE_NAME).length →
      i ∈ [1, 0] := by
    intro i hi
    have h2 : (candidateFiles "root" egTree FILE_EXTENSION FILE_NAME).length = 2 := rfl
    rw [h2] at hi
    interval_cases i <;> simp
  exact ⟨h, browse_and_extract_aggregates_all "root" egTree egFS
    FILE_EXTENSION FILE_NAME [1, 0] h⟩

/-- Claim C2: a parsed document with no matching drug-substance element
yields exactly one synthetic drug_substance record with manufacturer and
name both the missing sentinel and form N/A, and a document with no
matching drug-product element yields zero product records. -/
theorem missing_substance_synthesized (path : String) (root : Element) :
    (xpathAll root "m3-2-s-drug-substance" = [] →
      (extract_data_from_xml path (.wf root none)).1.filter
          (fun r => r.rtype == "drug_substance") = [syntheticSubstance path]
      ∧ (syntheticSubstance path).rtype = "drug_substance"
      ∧ (syntheticSubstance path).manufacturer = MISSING
      ∧ (syntheticSubstance path).name = MISSING
      ∧ (syntheticSubstance path).form = "N/A")
    ∧ (xpathAll root "m3-2-p-drug-product" = [] →
      (extract_data_from_xml path (.wf root none)).1.filter
          (fun r => r.rtype == "drug_product") = []) := by
  constructor
  · intro hs
    refine ⟨?_, rfl, rfl, rfl, rfl⟩
    show (appendTrace path root).filter _ = _
    rw [filter_substance_appendTrace, if_pos (by rw [hs]; rfl)]
  · intro hp
    show (appendTrace path root).filter _ = _
    rw [filter_product_appendTrace, hp]
    rfl

/-- Witness for C2 on a concrete document with no matching elements. -/
theorem missing_substance_synthesized_witness :
    xpathAll egEmptyDoc "m3-2-s-drug-substance" = []
    ∧ xpathAll egEmptyDoc "m3-2-p-drug-product" = []
    ∧ ((extract_data_from_xml "p" (.wf egEmptyDoc none)).1.filter
          (fun r => r.rtype == "drug_substance") = [syntheticSubstance "p"]
      ∧ (syntheticSubstance "p").rtype = "drug_substance"
      ∧ (syntheticSubstance "p").manufacturer = MISSING
      ∧ (syntheticSubstance "p").name = MISSING
      ∧ (syntheticSubstance "p").form = "N/A")
    ∧ (extract_data_from_xml "p" (.wf egEmptyDoc none)).1.filter
        (fun r => r.rtype == "drug_product") = [] :=
  ⟨rfl, rfl, (missing_substance_synthesized "p" egEmptyDoc).1 rfl,
    (missing_substance_synthesized "p" egEmptyDoc).2 rfl⟩

/-- Claim C3: a parsed document with at least one matching drug-substance
element yields exactly one drug_substance record per match, in document
order, none synthetic, each with form N/A and the element's attribute
values defaulted to the missing sentinel. -/
theorem substances_extracted_in_order (path : String) (root : Element)
    (h : xpathAll root "m3-2-s-drug-substance" ≠ []) :
    (extract_data_from_xml path (.wf root none)).1.filter
        (fun r => r.rtype == "drug_substance")
      = (xpathAll root "m3-2-s-drug-substance").map (substanceRecord path)
    ∧ ((extract_data_from_xml path (.wf root none)).1.filter
        (fun r => r.rtype == "drug_substance")).length
      = (xpathAll root "m3-2-s-drug-substance").length
    ∧ (∀ x ∈ xpathAll root "m3-2-s-drug-substance",
        (substanceRecord path x).rtype = "drug_substance"
        ∧ (substanceRecord path x).form = "N/A"
        ∧ (substanceRecord path x).manufacturer = orMissing (x.get "manufacturer")
        ∧ (substanceRecord path x).name = orMissing (x.get "substance"))
    ∧ orMissing none = MISSING := by
  have key : (extract_data_from_xml path (.wf root none)).1.filter
      (fun r => r.rtype == "drug_substance")
      = (xpathAll root "m3-2-s-drug-substance").map (substanceRecord path) := by
    show (appendTrace path root).filter _ = _
    rw [filter_substance_appendTrace,
      if_neg (by simpa [List.isEmpty_iff] using h)]
  exact ⟨key, by rw [key, List.length_map],
    fun x _ => ⟨rfl, rfl, rfl, rfl⟩, rfl⟩

/-- Witness for C3 on a concrete document with two substance elements, one
nested deeper and lacking both attributes. -/
theorem substances_extracted_in_order_witness :
    xpathAll egDoc2 "m3-2-s-drug-substance" ≠ []
    ∧ ((extract_data_from_xml "p" (.wf egDoc2 none)).1.filter
          (fun r => r.rtype == "drug_substance")
        = (xpathAll egDoc2 "m3-2-s-drug-substance").map (substanceRecord "p")
      ∧ ((extract_data_from_xml "p" (.wf egDoc2 none)).1.filter
          (fun r => r.rtype == "drug_substance")).length
        = (xpathAll egDoc2 "m3-2-s-drug-substance").length
      ∧ (∀ x ∈ xpathAll egDoc2 "m3-2-s-drug-substance",
          (substanceRecord "p" x).rtype = "drug_substance"
          ∧ (substanceRecord "p" x).form = "N/A"
          ∧ (substanceRecord "p" x).manufacturer = orMissing (x.get "manufacturer")
          ∧ (substanceRecord "p" x).name = orMissing (x.get "substance"))
      ∧ orMissing none = MISSING) := by
  have h : xpathAll egDoc2 "m3-2-s-drug-substance" ≠ [] := by
    rw [show xpathAll egDoc2 "m3-2-s-drug-substance" = [egSub, egSub2] from rfl]
    exact List.cons_ne_nil _ _
  exact ⟨h, substances_extracted_in_order "p" egDoc2 h⟩

/-- Claim C4: a malformed candidate file yields an empty record list and
exactly one warning, and the attempted-file count of `browse_and_extract`
counts every candidate file no matter what its contents are. -/
theorem malformed_file_skipped_but_counted (path target : String) (t : DirTree)
    (fs fs2 : FS) (e n : String) :
    extract_data_from_xml path .malformed = ([], [Warn.malformedWarning path])
    ∧ (extract_data_from_xml path .malformed).2.length = 1
    ∧ (browse_and_extract target t fs e n).2.2 = (candidateFiles target t e n).length
    ∧ (browse_and_extract target t fs e n).2.2 = (browse_and_extract target t fs2 e n).2.2 :=
  ⟨rfl, rfl, rfl, rfl⟩

/-- Claim C5 counterexample: an unexpected exception firing after one
`data.append` (for instance a failure of the `debug_logger.debug` call
between the substance and product loops) is caught and logged, but the
function returns the one record already appended — not zero records as the
claim states, since `return data` runs after the except clause. -/
theorem unexpected_error_returns_partial_records :
    (extract_data_from_xml "p" (.wf egDoc (some 1))).2 = [Warn.unexpectedWarning "p"]
    ∧ (extract_data_from_xml "p" (.wf egDoc (some 1))).1 = [substanceRecord "p" egSub]
    ∧ (extract_data_from_xml "p" (.wf egDoc (some 1))).1 ≠ [] :=
  ⟨rfl, rfl, by decide⟩

/-- Claim C5 amended: for every candidate file whose processing raises any
exception other than a malformed-syntax parse error, the exception does not
propagate and exactly one warning carrying the path is emitted, but the
function returns the records appended before the exception fired — a
possibly non-empty prefix of the full extraction trace, not always zero
records. -/
theorem unexpected_error_caught_partial_prefix (path : String) (root : Element)
    (k : Nat) :
    extract_data_from_xml path (.wf root (some k))
      = ((appendTrace path root).take k, [Warn.unexpectedWarning path])
    ∧ (extract_data_from_xml path (.wf root (some k))).2.length = 1
    ∧ (extract_data_from_xml path (.wf root (some k))).1
        ++ (appendTrace path root).drop k = appendTrace path root :=
  ⟨rfl, rfl, List.take_append_drop k (appendTrace path root)⟩

/-- Claim C6 counterexample: `os.walk` is called with its default
`onerror=None`, so a root directory that cannot be listed is silently
ignored — the walk yields nothing, zero files are attempted, and the run
completes normally with the same result as on an empty readable tree; it
does not abort.  The matching file inside the unreadable root is simply
never seen. -/
theorem unreadable_root_completes_normally :
    osWalk "r" unreadableRoot = []
    ∧ browse_and_extract "r" unreadableRoot egFS FILE_EXTENSION FILE_NAME = ([], [], 0)
    ∧ browse_and_extract "r" unreadableRoot egFS FILE_EXTENSION FILE_NAME
        = browse_and_extract "r" (DirTree.dir "r" true [] []) egFS
            FILE_EXTENSION FILE_NAME :=
  ⟨rfl, rfl, rfl⟩

/-- Claim C6 amended: no traversal error is fatal to the run, including
inability to read the root path: an unreadable directory contributes no
walk entries, an unreadable root yields a normally completed run with zero
records and zero files attempted, and an unreadable subdirectory is skipped
without affecting its siblings' contribution to the walk. -/
theorem traversal_errors_not_fatal (p nm : String) (files : List String)
    (subs ds1 ds2 : List DirTree) (fs : FS) (e n : String) :
    osWalk p (DirTree.dir nm false files subs) = []
    ∧ browse_and_extract p (DirTree.dir nm false files subs) fs e n = ([], [], 0)
    ∧ osWalkChildren p (ds1 ++ DirTree.dir nm false files subs :: ds2)
        = osWalkChildren p (ds1 ++ ds2) := by
  refine ⟨rfl, rfl, ?_⟩
  induction ds1 with
  | nil =>
    show osWalk (p ++ "/" ++ (DirTree.dir nm false files subs).name)
        (DirTree.dir nm false files subs) ++ osWalkChildren p ds2
      = osWalkChildren p ds2
    rw [show osWalk (p ++ "/" ++ (DirTree.dir nm false files subs).name)
        (DirTree.dir nm false files subs) = [] from rfl]
    rfl
  | cons d rest ih =>
    show osWalk (p ++ "/" ++ d.name) d
        ++ osWalkChildren p (rest ++ DirTree.dir nm false files subs :: ds2)
      = osWalk (p ++ "/" ++ d.name) d ++ osWalkChildren p (rest ++ ds2)
    rw [ih]

/-- Claim C7: on a fully readable tree, the walker's filename condition
coincides with the spec's condition (name equals the configured file name
AND extension equals the configured extension), the number of yielded
candidates equals the number of files in the tree satisfying the spec's
condition at any depth (each matching file appears exactly once), and
every yielded path comes from a walked directory and a filename satisfying
the condition. -/
theorem walker_yields_exactly_matches (target : String) (t : DirTree)
    (h : allReadable t = true) :
    (∀ f, matchesFilter FILE_EXTENSION FILE_NAME f
        = specFilter FILE_NAME FILE_EXTENSION f)
    ∧ (candidateFiles target t FILE_EXTENSION FILE_NAME).length = specMatchCount t
    ∧ ∀ p ∈ candidateFiles target t FILE_EXTENSION FILE_NAME,
        ∃ pr ∈ osWalk target t, ∃ f ∈ pr.2,
          specFilter FILE_NAME FILE_EXTENSION f = true ∧ p = pr.1 ++ "/" ++ f := by
  refine ⟨filters_agree, candidateFiles_length_eq target t h, ?_⟩
  intro p hp
  unfold candidateFiles at hp
  rcases List.mem_flatMap.mp hp with ⟨pr, hpr, hpf⟩
  rcases List.mem_map.mp hpf with ⟨f, hf, rfl⟩
  rcases List.mem_filter.mp hf with ⟨hfmem, hfmatch⟩
  exact ⟨pr, hpr, f, hfmem, by rw [← filters_agree]; exact hfmatch, rfl⟩

/-- Witness for C7 on a concrete readable tree holding two matching files at
different depths, one file with the right extension but wrong name and one
with the wrong extension. -/
theorem walker_yields_exactly_matches_witness :
    allReadable egTree = true
    ∧ ((∀ f, matchesFilter FILE_EXTENSION FILE_NAME f
          = specFilter FILE_NAME FILE_EXTENSION f)
      ∧ (candidateFiles "root" egTree FILE_EXTENSION FILE_NAME).length
          = specMatchCount egTree
      ∧ ∀ p ∈ candidateFiles "root" egTree FILE_EXTENSION FILE_NAME,
          ∃ pr ∈ osWalk "root" egTree, ∃ f ∈ pr.2,
            specFilter FILE_NAME FILE_EXTENSION f = true ∧ p = pr.1 ++ "/" ++ f) :=
  ⟨rfl, walker_yields_exactly_matches "root" egTree rfl⟩

/-- Claim C8: no report is produced for an empty record collection; a
non-empty collection produces exactly one report holding the header row
Type, File Path, Manufacturer, Name, Form followed by one row per record;
and every record aggregated by `browse_and_extract` has Type drug_substance
or drug_product. -/
theorem report_written_iff_records (target : String) (t : DirTree) (fs : FS)
    (e n : String) :
    writeReport [] = none
    ∧ (∀ data : List Record, data ≠ [] →
        writeReport data = some (headerRow :: data.map Record.toRow))
    ∧ ∀ r ∈ (browse_and_extract target t fs e n).1,
        r.rtype = "drug_substance" ∨ r.rtype = "drug_product" := by
  refine ⟨rfl, ?_, ?_⟩
  · intro data hd
    unfold writeReport
    rw [if_neg (by simpa [List.isEmpty_iff] using hd)]
  · intro r hr
    rw [browse_fst_eq target t fs e n] at hr
    rcases List.mem_flatten.mp hr with ⟨l, hl, hrl⟩
    rcases List.mem_map.mp hl with ⟨p, _, rfl⟩
    exact rtype_of_mem_extract p (fs p) r hrl

/-- Witness for C8 on a concrete non-empty record collection. -/
theorem report_written_iff_records_witness :
    ([syntheticSubstance "p"] : List Record) ≠ []
    ∧ writeReport [syntheticSubstance "p"]
        = some (headerRow :: [syntheticSubstance "p"].map Record.toRow) :=
  ⟨by decide,
    (report_written_iff_records "r" unreadableRoot egFS FILE_EXTENSION
        FILE_NAME).2.1 [syntheticSubstance "p"] (by decide)⟩

/-- Claim C9: an attribute present with the empty string as its value is
recorded as the missing sentinel, exactly as if the attribute were absent —
the Python `or` substitution triggers on falsiness, not only on absence. -/
theorem empty_attribute_is_missing (path : String) (x : Element) :
    (x.get "manufacturer" = some "" → (substanceRecord path x).manufacturer = MISSING)
    ∧ (x.get "substance" = some "" → (substanceRecord path x).name = MISSING)
    ∧ (x.get "manufacturer" = some "" → (productRecord path x).manufacturer = MISSING)
    ∧ (x.get "product-name" = some "" → (productRecord path x).name = MISSING)
    ∧ (x.get "dosageform" = some "" → (productRecord path x).form = MISSING)
    ∧ ∀ v : Option String, (v = some "" ∨ v = none) → orMissing v = MISSING := by
  have hv : ∀ v : Option String, (v = some "" ∨ v = none) → orMissing v = MISSING := by
    rintro v (rfl | rfl) <;> rfl
  refine ⟨?_, ?_, ?_, ?_, ?_, hv⟩ <;> intro hg
  · show orMissing (x.get "manufacturer") = MISSING
    rw [hg]
    exact hv (some "") (Or.inl rfl)
  · show orMissing (x.get "substance") = MISSING
    rw [hg]
    exact hv (some "") (Or.inl rfl)
  · show orMissing (x.get "manufacturer") = MISSING
    rw [hg]
    exact hv (some "") (Or.inl rfl)
  · show orMissing (x.get "product-name") = MISSING
    rw [hg]
    exact hv (some "") (Or.inl rfl)
  · show orMissing (x.get "dosageform") = MISSING
    rw [hg]
    exact hv (some "") (Or.inl rfl)

/-- Witness for C9 on a concrete element whose relevant attributes are all
present but empty. -/
theorem empty_attribute_is_missing_witness :
    egEmptyAttr.get "manufacturer" = some ""
    ∧ (substanceRecord "p" egEmptyAttr).manufacturer = MISSING
    ∧ (substanceRecord "p" egEmptyAttr).name = MISSING
    ∧ (productRecord "p" egEmptyAttr).manufacturer = MISSING
    ∧ (productRecord "p" egEmptyAttr).name = MISSING
    ∧ (productRecord "p" egEmptyAttr).form = MISSING :=
  ⟨rfl, (empty_attribute_is_missing "p" egEmptyAttr).1 rfl,
    (empty_attribute_is_missing "p" egEmptyAttr).2.1 rfl,
    (empty_attribute_is_missing "p" egEmptyAttr).2.2.1 rfl,
    (empty_attribute_is_missing "p" egEmptyAttr).2.2.2.1 rfl,
    (empty_attribute_is_missing "p" egEmptyAttr).2.2.2.2.1 rfl⟩

/-- Claim C10: the gathered result sequence is identical under any two
completion orders in which every task finishes, equals the per-candidate
extraction results in submission order (`executor.map` returns results in
input order), and the final record sequence is their concatenation in
submission order — two runs over the same inputs yield identical record
sequences, not merely equal multisets. -/
theorem final_order_deterministic (cands : List String) (fs : FS)
    (o1 o2 : List Nat)
    (h1 : ∀ i, i < cands.length → i ∈ o1)
    (h2 : ∀ i, i < cands.length → i ∈ o2) :
    poolResults cands fs o1 = poolResults cands fs o2
    ∧ poolResults cands fs o1
        = (cands.map fun p => (extract_data_from_xml p (fs p)).1)
    ∧ ∀ (target : String) (t : DirTree) (e n : String),
        (browse_and_extract target t fs e n).1
          = ((candidateFiles target t e n).map
              fun p => (extract_data_from_xml p (fs p)).1).flatten := by
  have k1 := poolResults_eq cands fs o1 h1
  have k2 := poolResults_eq cands fs o2 h2
  exact ⟨k1.trans k2.symm, k1, fun target t e n => browse_fst_eq target t fs e n⟩

/-- Witness for C10 on two concrete candidate paths, gathered once in
submission order and once in reversed completion order. -/
theorem final_order_deterministic_witness :
    (∀ i, i < (["a", "b"] : List String).length → i ∈ [0, 1])
    ∧ (∀ i, i < (["a", "b"] : List String).length → i ∈ [1, 0])
    ∧ (poolResults ["a", "b"] egFS [0, 1] = poolResults ["a", "b"] egFS [1, 0]
      ∧ poolResults ["a", "b"] egFS [0, 1]
          = ((["a", "b"] : List String).map
              fun p => (extract_data_from_xml p (egFS p)).1)
      ∧ ∀ (target : String) (t : DirTree) (e n : String),
          (browse_and_extract target t egFS e n).1
            = ((candidateFiles target t e n).map
                fun p => (extract_data_from_xml p (egFS p)).1).flatten) := by
  have h1 : ∀ i, i < (["a", "b"] : List String).length → i ∈ [0, 1] := by
    intro i hi
    have h2 : (["a", "b"] : List String).length = 2 := rfl
    rw [h2] at hi
    interval_cases i <;> simp
  have h2 : ∀ i, i < (["a", "b"] : List String).length → i ∈ [1, 0] := by
    intro i hi
    have h3 : (["a", "b"] : List String).length = 2 := rfl
    rw [h3] at hi
    interval_cases i <;> simp
  exact ⟨h1, h2, final_order_deterministic ["a", "b"] egFS [0, 1] [1, 0] h1 h2⟩

end IndexCrawler
